import Mathlib

/-!
Shallow embedding of `derr.h` — the Della Rosa error-reporting library
(header-only C, leveled logging with console/file/syslog fanout, errno
translation, fatal macros and backtrace capture).

The source is embedded as pure Lean functions.  Side effects (sink writes,
mutex operations, openlog/closelog) are modelled as an explicit event
trace (`List Event`); process termination is an explicit `Outcome`.
Conditional compilation (`DERR_POSIX`, `_GNU_SOURCE`, the backtrace
availability test on line 284 of `derr.h`) and the behaviour of external
OS facilities (`strerror_r`, `backtrace`) are modelled by a `Platform`
record of flags and oracles, so that every theorem quantifies over all
platform behaviours the C source can encounter.
-/

namespace Derr

/-- The `derr_level` enumeration.  C enumerators are `int`-valued, and
`derr_log` may be called with any integer, so levels are `Int` with the
five named constants from `derr.h` lines 52-58. -/
def DERR_DEBUG : Int := 10

/-- Enumerator `DERR_INFO = 20`. -/
def DERR_INFO : Int := 20

/-- Enumerator `DERR_WARN = 30`. -/
def DERR_WARN : Int := 30

/-- Enumerator `DERR_ERROR = 40`. -/
def DERR_ERROR : Int := 40

/-- Enumerator `DERR_FATAL = 50`. -/
def DERR_FATAL : Int := 50

/-- The `<syslog.h>` priority `LOG_CRIT`. -/
def LOG_CRIT : Nat := 2

/-- The `<syslog.h>` priority `LOG_ERR`. -/
def LOG_ERR : Nat := 3

/-- The `<syslog.h>` priority `LOG_WARNING`. -/
def LOG_WARNING : Nat := 4

/-- The `<syslog.h>` priority `LOG_INFO`. -/
def LOG_INFO : Nat := 6

/-- The `<syslog.h>` priority `LOG_DEBUG`. -/
def LOG_DEBUG : Nat := 7

/-- The mutable global state `g_derr` (`derr.h` lines 148-163).
`file` is `true` when a non-NULL `FILE*` has been installed with
`derr_set_log_file` (the handle's identity does not matter to any
observable modelled here).  The pthread mutex itself carries no data; its
acquisition/release show up as trace events. -/
structure DerrState where
  progname : Option String
  min_level : Int
  color : Bool
  utc : Bool
  include_errno : Bool
  file : Bool
  use_syslog : Bool
deriving DecidableEq, Repr

/-- Compile-time platform facts and OS-facility oracles.

* `posix` — `DERR_POSIX` (`__unix__ || __APPLE__`): mutex, `<syslog.h>`.
* `gnu_strerror` — `_GNU_SOURCE && !__APPLE__`: which `strerror_r` variant.
* `bt_avail` — whether the backtrace block on line 284 of `derr.h` is
  compiled in (`DERR_POSIX && defined(EXECINFO_H) || (__linux__ && !__ANDROID__)`).
* `strerror_ok e` — XSI `strerror_r`: `some desc` when it returns 0 after
  writing `desc` into the caller's buffer, `none` when it fails (nonzero).
* `strerror_gnu e` — GNU `strerror_r`: the description it produces, paired
  with `true` when it wrote it directly into the caller's buffer
  (`msg == buf`) and `false` when it returned a pointer to an immutable
  static string instead.
* `frames` — the number of frames `backtrace` can deliver; the call
  `backtrace(bt, 128)` returns at most 128 of them. -/
structure Platform where
  posix : Bool
  gnu_strerror : Bool
  bt_avail : Bool
  strerror_ok : Int → Option String
  strerror_gnu : Int → String × Bool
  frames : Nat

/-- One observable side effect of the library.  `consoleWrite` carries the
complete text the record contributes to `stderr` (one line, or two when
the errno-detail line is present); `fileWrite`/`syslogWrite` likewise carry
the full per-sink record text; `btWrite` is the fatal-path backtrace
rendering (header + symbol dump) sent to `stderr`. -/
inductive Event where
  | lock
  | unlock
  | consoleWrite (text : String)
  | consoleFlush
  | fileWrite (text : String)
  | fileFlush
  | syslogWrite (pri : Nat) (text : String)
  | btWrite (frames : Nat) (header : String)
  | openlogChannel (ident : String)
  | closelogChannel
deriving DecidableEq, Repr

/-- How the process leaves an entry point: normal return, `exit(code)`,
or `abort()` (abnormal, signal-based termination). -/
inductive Outcome where
  | ret
  | exited (code : Nat)
  | aborted
deriving DecidableEq, Repr

/-- The initial value of `g_derr` (`derr.h` line 159):
`{ NULL, DERR_DEBUG, 1, 0, 1, NULL, 0 }`. -/
def g_derr : DerrState :=
  { progname := none
    min_level := DERR_DEBUG
    color := true
    utc := false
    include_errno := true
    file := false
    use_syslog := false }

/-- Function `level_str` (`derr.h` lines 165-174). -/
def level_str (l : Int) : String :=
  if l = DERR_DEBUG then "DEBUG"
  else if l = DERR_INFO then "INFO"
  else if l = DERR_WARN then "WARN"
  else if l = DERR_ERROR then "ERROR"
  else if l = DERR_FATAL then "FATAL"
  else "LOG"

/-- Function `level_color` (`derr.h` lines 176-186). -/
def level_color (g : DerrState) (l : Int) : String :=
  if !g.color then ""
  else if l = DERR_DEBUG then "\x1b[2m"
  else if l = DERR_INFO then "\x1b[0m"
  else if l = DERR_WARN then "\x1b[33m"
  else if l = DERR_ERROR then "\x1b[31m"
  else if l = DERR_FATAL then "\x1b[1;31m"
  else "\x1b[0m"

/-- Function `color_reset` (`derr.h` line 188). -/
def color_reset (g : DerrState) : String :=
  if g.color then "\x1b[0m" else ""

/-- Function `strerror_portable` (`derr.h` lines 203-212).  The result is the final
content of the caller-supplied buffer.  GNU branch: `strerror_r` either
wrote into the buffer already (`in_buf`) or returned a static pointer, in
which case `snprintf(buf, n, "%s", msg)` copies it in.  XSI branch: a
nonzero return is replaced by `snprintf(buf, n, "errno %d", errnum)`. -/
def strerror_portable (p : Platform) (errnum : Int) : String :=
  if p.gnu_strerror then
    let msg := (p.strerror_gnu errnum).1
    let in_buf := (p.strerror_gnu errnum).2
    if in_buf then msg else msg
  else
    match p.strerror_ok errnum with
    | some s => s
    | none => "errno " ++ toString errnum

/-- Function `lock` (`derr.h` lines 214-218): `pthread_mutex_lock` under
`DERR_POSIX`, compiled to nothing otherwise. -/
def lockE (p : Platform) : List Event :=
  if p.posix then [Event.lock] else []

/-- Function `unlock` (`derr.h` lines 219-223). -/
def unlockE (p : Platform) : List Event :=
  if p.posix then [Event.unlock] else []

/-- The text a record writes to `stderr` (`derr.h` lines 247-253): the
primary line, plus the errno-detail second line when `has_errno` and the
`include_errno` flag both hold.  `tbuf` is the timestamp `ts_now`
produced, `msg` the `vsnprintf`-rendered user message, `ebuf` the errno
description. -/
def consoleText (g : DerrState) (lvl : Int) (has_errno : Bool) (errnum : Int)
    (tbuf msg ebuf : String) : String :=
  let pname := g.progname.getD "program"
  let c := level_color g lvl
  let r := color_reset g
  if has_errno && g.include_errno then
    c ++ tbuf ++ r ++ " [" ++ level_str lvl ++ "] " ++ pname ++ ": " ++ msg ++
      " (errno=" ++ toString errnum ++ ")\n" ++
      c ++ "        -> " ++ ebuf ++ r ++ "\n"
  else
    c ++ tbuf ++ r ++ " [" ++ level_str lvl ++ "] " ++ pname ++ ": " ++ msg ++ "\n"

/-- The text a record writes to the optional file sink
(`derr.h` lines 256-261): same structure, no colour codes. -/
def fileText (g : DerrState) (lvl : Int) (has_errno : Bool) (errnum : Int)
    (tbuf msg ebuf : String) : String :=
  let pname := g.progname.getD "program"
  if has_errno && g.include_errno then
    tbuf ++ " [" ++ level_str lvl ++ "] " ++ pname ++ ": " ++ msg ++
      " (errno=" ++ toString errnum ++ ")\n        -> " ++ ebuf ++ "\n"
  else
    tbuf ++ " [" ++ level_str lvl ++ "] " ++ pname ++ ": " ++ msg ++ "\n"

/-- The severity→priority mapping of the syslog block
(`derr.h` lines 268-275); any value outside the enumeration falls to the
`default: LOG_INFO` arm. -/
def syslog_priority (lvl : Int) : Nat :=
  if lvl = DERR_DEBUG then LOG_DEBUG
  else if lvl = DERR_INFO then LOG_INFO
  else if lvl = DERR_WARN then LOG_WARNING
  else if lvl = DERR_ERROR then LOG_ERR
  else if lvl = DERR_FATAL then LOG_CRIT
  else LOG_INFO

/-- The text sent to `syslog` (`derr.h` lines 276-279). -/
def syslogText (g : DerrState) (has_errno : Bool) (errnum : Int)
    (msg ebuf : String) : String :=
  let pname := g.progname.getD "program"
  if has_errno && g.include_errno then
    pname ++ ": " ++ msg ++ " (errno=" ++ toString errnum ++ ") -> " ++ ebuf
  else
    pname ++ ": " ++ msg

/-- The backtrace header `fprintf(stderr, "%sBacktrace (%d frames):%s\n", c, n, r)`
(`derr.h` line 289). -/
def btHeader (g : DerrState) (lvl : Int) (n : Nat) : String :=
  level_color g lvl ++ "Backtrace (" ++ toString n ++ " frames):" ++
    color_reset g ++ "\n"

/-- Function `vemit` (`derr.h` lines 225-297), as the trace of events one call
produces.  `tbuf` stands for the timestamp `ts_now` renders and `msg` for
the user message `vsnprintf` renders; both happen before the lock and
produce no events.  The early return on `lvl < min_level` yields the empty
trace: no formatting, no lock, no sink writes. -/
def vemit (p : Platform) (g : DerrState) (lvl : Int) (has_errno : Bool)
    (errnum : Int) (tbuf msg : String) : List Event :=
  if lvl < g.min_level then []
  else
    let ebuf : String :=
      if has_errno && g.include_errno then strerror_portable p errnum else ""
    let n := min p.frames 128
    lockE p ++
    [Event.consoleWrite (consoleText g lvl has_errno errnum tbuf msg ebuf)] ++
    (if g.file then
        [Event.fileWrite (fileText g lvl has_errno errnum tbuf msg ebuf),
         Event.fileFlush]
      else []) ++
    (if p.posix && g.use_syslog then
        [Event.syslogWrite (syslog_priority lvl) (syslogText g has_errno errnum msg ebuf)]
      else []) ++
    (if p.bt_avail && decide (DERR_FATAL ≤ lvl) && decide (0 < n) then
        [Event.btWrite n (btHeader g lvl n)]
      else []) ++
    unlockE p

/-- Function `derr_log` (`derr.h` lines 320-322): `vemit(lvl, 0, 0, fmt, ap)`. -/
def derr_log (p : Platform) (g : DerrState) (lvl : Int) (tbuf msg : String) :
    List Event :=
  vemit p g lvl false 0 tbuf msg

/-- Function `derr_log_errno` (`derr.h` lines 324-326): `vemit(lvl, 1, errnum, fmt, ap)`. -/
def derr_log_errno (p : Platform) (g : DerrState) (lvl : Int) (errnum : Int)
    (tbuf msg : String) : List Event :=
  vemit p g lvl true errnum tbuf msg

/-- Function `derr_flush` (`derr.h` lines 328-333). -/
def derr_flush (p : Platform) (g : DerrState) : List Event :=
  lockE p ++ [Event.consoleFlush] ++
    (if g.file then [Event.fileFlush] else []) ++ unlockE p

/-- Setter `derr_set_program_name` (`derr.h` line 300). -/
def derr_set_program_name (g : DerrState) (name : String) : DerrState :=
  { g with progname := some name }

/-- Setter `derr_set_min_level` (`derr.h` line 301). -/
def derr_set_min_level (g : DerrState) (lvl : Int) : DerrState :=
  { g with min_level := lvl }

/-- Setter `derr_enable_color` (`derr.h` line 302). -/
def derr_enable_color (g : DerrState) (enable : Bool) : DerrState :=
  { g with color := enable }

/-- Setter `derr_set_timestamp_utc` (`derr.h` line 303). -/
def derr_set_timestamp_utc (g : DerrState) (use_utc : Bool) : DerrState :=
  { g with utc := use_utc }

/-- Setter `derr_set_log_file` (`derr.h` line 304); `file = true` models a
non-NULL `FILE*`. -/
def derr_set_log_file (g : DerrState) (fp : Bool) : DerrState :=
  { g with file := fp }

/-- Setter `derr_set_include_errno_details` (`derr.h` line 305). -/
def derr_set_include_errno_details (g : DerrState) (enable : Bool) : DerrState :=
  { g with include_errno := enable }

/-- Function `derr_use_syslog` (`derr.h` lines 307-318): events produced and the
new state.  A no-op on non-POSIX platforms. -/
def derr_use_syslog (p : Platform) (g : DerrState) (enable : Bool) :
    List Event × DerrState :=
  if p.posix then
    if enable && !g.use_syslog then
      ([Event.openlogChannel (g.progname.getD "program")],
       { g with use_syslog := true })
    else if !enable && g.use_syslog then
      ([Event.closelogChannel], { g with use_syslog := false })
    else ([], g)
  else ([], g)

/-- Macro `DIE(...)` (`derr.h` lines 87-91): FATAL record, flush, `exit(EXIT_FAILURE)`. -/
def DIE (p : Platform) (g : DerrState) (tbuf msg : String) :
    List Event × Outcome :=
  (derr_log p g DERR_FATAL tbuf msg ++ derr_flush p g, Outcome.exited 1)

/-- Macro `DIE_ERRNO(...)` (`derr.h` lines 93-97): FATAL record with the current
`errno`, flush, `exit(EXIT_FAILURE)`. -/
def DIE_ERRNO (p : Platform) (g : DerrState) (cur_errno : Int)
    (tbuf msg : String) : List Event × Outcome :=
  (derr_log_errno p g DERR_FATAL cur_errno tbuf msg ++ derr_flush p g,
   Outcome.exited 1)

/-- Macro `DASSERT(cond, ...)` (`derr.h` lines 100-106).  `cond_str` is the
stringified condition `#cond`; the emitted message renders the format
string `"Assert failed: %s — " fmt` with `#cond` as first argument. -/
def DASSERT (p : Platform) (g : DerrState) (cond : Bool) (cond_str : String)
    (cur_errno : Int) (tbuf msg : String) : List Event × Outcome :=
  if cond then ([], Outcome.ret)
  else
    (derr_log_errno p g DERR_FATAL cur_errno tbuf
        ("Assert failed: " ++ cond_str ++ " — " ++ msg) ++ derr_flush p g,
     Outcome.aborted)

/-- Macro `DTRY(expr)` (`derr.h` line 109): if the expression's value is `-1`,
exactly `DIE_ERRNO("%s failed", #expr)` with the current `errno`;
otherwise nothing happens. -/
def DTRY (p : Platform) (g : DerrState) (expr_val : Int) (expr_str : String)
    (cur_errno : Int) (tbuf : String) : List Event × Outcome :=
  if expr_val = -1 then
    DIE_ERRNO p g cur_errno tbuf (expr_str ++ " failed")
  else ([], Outcome.ret)

/-- The console record texts of a trace (backtrace output excluded — it is
the `btWrite` constructor). -/
def consoleTexts (evts : List Event) : List String :=
  evts.filterMap fun e =>
    match e with
    | Event.consoleWrite t => some t
    | _ => none

/-- The file-sink record texts of a trace. -/
def fileTexts (evts : List Event) : List String :=
  evts.filterMap fun e =>
    match e with
    | Event.fileWrite t => some t
    | _ => none

/-- The syslog record texts of a trace. -/
def syslogTexts (evts : List Event) : List String :=
  evts.filterMap fun e =>
    match e with
    | Event.syslogWrite _ t => some t
    | _ => none

/-- Whether an event is a backtrace write. -/
def isBt : Event → Bool
  | Event.btWrite _ _ => true
  | _ => false

/-- The backtrace writes of a trace: captured frame count and header. -/
def btEvents (evts : List Event) : List (Nat × String) :=
  evts.filterMap fun e =>
    match e with
    | Event.btWrite n h => some (n, h)
    | _ => none

/-- The syslog writes of a trace: priority and text. -/
def syslogEvents (evts : List Event) : List (Nat × String) :=
  evts.filterMap fun e =>
    match e with
    | Event.syslogWrite pr t => some (pr, t)
    | _ => none

/-- Whether an event touches a sink (console, file, or syslog — writes,
flushes and the backtrace rendering), as opposed to a mutex or
openlog/closelog event. -/
def isSink : Event → Bool
  | Event.consoleWrite _ => true
  | Event.consoleFlush => true
  | Event.fileWrite _ => true
  | Event.fileFlush => true
  | Event.syslogWrite _ _ => true
  | Event.btWrite _ _ => true
  | _ => false

/-- Predicate: `d` occurs as contiguous text inside `t`. -/
def OccursIn (d t : String) : Prop :=
  ∃ pre post, pre ++ d ++ post = t

/-- Folding one event into the "is the system-log channel open" shadow
state: `openlog` opens it, `closelog` closes it. -/
def chanStep (chan : Bool) : Event → Bool
  | Event.openlogChannel _ => true
  | Event.closelogChannel => false
  | _ => chan

/-- Channel state after a trace. -/
def chanAfter (chan : Bool) (evts : List Event) : Bool :=
  evts.foldl chanStep chan

/-- Running a sequence of `derr_use_syslog` calls, accumulating the trace. -/
def runSyslogCalls (p : Platform) (g : DerrState) : List Bool → List Event × DerrState
  | [] => ([], g)
  | b :: bs =>
    let r := derr_use_syslog p g b
    let rest := runSyslogCalls p r.2 bs
    (r.1 ++ rest.1, rest.2)

/-- Abbreviation for the `ebuf` subterm of `vemit`: the errno description
buffer, filled only when the record carries an error code and the
`include_errno` flag is on, otherwise left as the empty (zeroed) buffer. -/
def ebufOf (p : Platform) (g : DerrState) (has_errno : Bool) (errnum : Int) : String :=
  if has_errno && g.include_errno then strerror_portable p errnum else ""

/-- Abbreviation for the backtrace subterm of `vemit` (`derr.h` lines
283-294): present only when the backtrace block is compiled in, the
severity is at least `DERR_FATAL`, and `backtrace` returned a positive
frame count. -/
def btPart (p : Platform) (g : DerrState) (lvl : Int) : List Event :=
  if p.bt_avail && decide (DERR_FATAL ≤ lvl) && decide (0 < min p.frames 128) then
    [Event.btWrite (min p.frames 128) (btHeader g lvl (min p.frames 128))]
  else []

/-- A concrete POSIX/Linux-like platform used by the closed witness
theorems: XSI `strerror_r` that succeeds only for error code 2, backtrace
available with 4 frames. -/
def pLinux : Platform :=
  { posix := true
    gnu_strerror := false
    bt_avail := true
    strerror_ok := fun e => if e = 2 then some "No such file or directory" else none
    strerror_gnu := fun _ => ("", false)
    frames := 4 }

/-- A concrete configuration used by the witness theorems: the defaults
with `min_level` raised to `DERR_WARN`. -/
def cfgWarn : DerrState := derr_set_min_level g_derr DERR_WARN

/-- A concrete GNU-libc-like platform whose `strerror_r` writes into the
caller buffer directly. -/
def pGnuDirect : Platform :=
  { posix := true
    gnu_strerror := true
    bt_avail := true
    strerror_ok := fun _ => none
    strerror_gnu := fun _ => ("Interrupted system call", true)
    frames := 4 }

/-- The same platform except `strerror_r` returns a pointer to its own
immutable static string instead of writing into the caller buffer. -/
def pGnuStatic : Platform :=
  { posix := true
    gnu_strerror := true
    bt_avail := true
    strerror_ok := fun _ => none
    strerror_gnu := fun _ => ("Interrupted system call", false)
    frames := 4 }

theorem vemit_pass (p : Platform) (g : DerrState) (lvl : Int) (has_errno : Bool)
    (errnum : Int) (tbuf msg : String) (h : ¬ lvl < g.min_level) :
    vemit p g lvl has_errno errnum tbuf msg =
      lockE p ++
      [Event.consoleWrite
        (consoleText g lvl has_errno errnum tbuf msg (ebufOf p g has_errno errnum))] ++
      (if g.file then
          [Event.fileWrite
            (fileText g lvl has_errno errnum tbuf msg (ebufOf p g has_errno errnum)),
           Event.fileFlush]
        else []) ++
      (if p.posix && g.use_syslog then
          [Event.syslogWrite (syslog_priority lvl)
            (syslogText g has_errno errnum msg (ebufOf p g has_errno errnum))]
        else []) ++
      btPart p g lvl ++ unlockE p := by
  rw [vemit, if_neg h]
  rfl

theorem btPart_isBt (p : Platform) (g : DerrState) (lvl : Int) :
    ∀ e ∈ btPart p g lvl, isBt e = true := by
  intro e he
  unfold btPart at he
  by_cases hc : (p.bt_avail && decide (DERR_FATAL ≤ lvl) && decide (0 < min p.frames 128)) = true
  · rw [if_pos hc] at he
    simp only [List.mem_singleton] at he
    subst he
    rfl
  · rw [if_neg hc] at he
    exact absurd he (List.not_mem_nil e)

/-- Claim C1: an emission through `derr_log`/`derr_log_errno` (both reach
`vemit`) at severity below `min_level` is a no-op — the empty trace, no
sink writes, no formatting, no lock; at severity at least `min_level` it
produces exactly one console record write, then exactly one file write
immediately followed by its flush when a file sink is configured, then
exactly one system-log write when syslog is enabled, in that fixed order
(followed only by the fatal-path backtrace rendering, if any). -/
theorem emission_filter_and_ordered_fanout
    (p : Platform) (g : DerrState) (lvl : Int) (has_errno : Bool)
    (errnum : Int) (tbuf msg : String) :
    (lvl < g.min_level → vemit p g lvl has_errno errnum tbuf msg = []) ∧
    (g.min_level ≤ lvl →
      ∃ ct ft st bt,
        vemit p g lvl has_errno errnum tbuf msg =
          lockE p ++
          [Event.consoleWrite ct] ++
          (if g.file then [Event.fileWrite ft, Event.fileFlush] else []) ++
          (if p.posix && g.use_syslog then
              [Event.syslogWrite (syslog_priority lvl) st] else []) ++
          bt ++ unlockE p ∧
        ∀ e ∈ bt, isBt e = true) := by
  constructor
  · intro h
    rw [vemit, if_pos h]
  · intro h
    exact ⟨_, _, _, _, vemit_pass p g lvl has_errno errnum tbuf msg (not_lt.mpr h),
      btPart_isBt p g lvl⟩

theorem emission_filter_and_ordered_fanout_witness :
    vemit pLinux cfgWarn DERR_DEBUG false 0 "t" "m" = [] ∧
    (∃ ct ft st bt,
      vemit pLinux cfgWarn DERR_ERROR false 0 "t" "m" =
        lockE pLinux ++
        [Event.consoleWrite ct] ++
        (if cfgWarn.file then [Event.fileWrite ft, Event.fileFlush] else []) ++
        (if pLinux.posix && cfgWarn.use_syslog then
            [Event.syslogWrite (syslog_priority DERR_ERROR) st] else []) ++
        bt ++ unlockE pLinux ∧
      ∀ e ∈ bt, isBt e = true) :=
  ⟨(emission_filter_and_ordered_fanout pLinux cfgWarn DERR_DEBUG false 0 "t" "m").1
      (by decide),
   (emission_filter_and_ordered_fanout pLinux cfgWarn DERR_ERROR false 0 "t" "m").2
      (by decide)⟩

theorem consoleTexts_vemit (p : Platform) (g : DerrState) (lvl : Int)
    (has_errno : Bool) (errnum : Int) (tbuf msg : String) :
    consoleTexts (vemit p g lvl has_errno errnum tbuf msg) =
      if lvl < g.min_level then []
      else [consoleText g lvl has_errno errnum tbuf msg (ebufOf p g has_errno errnum)] := by
  by_cases h : lvl < g.min_level
  · rw [vemit, if_pos h, if_pos h]
    rfl
  · rw [vemit_pass p g lvl has_errno errnum tbuf msg h, if_neg h]
    unfold consoleTexts lockE unlockE btPart
    simp only [List.filterMap_append, List.filterMap_cons, List.filterMap_nil, apply_ite
      (List.filterMap fun e =>
        match e with
        | Event.consoleWrite t => some t
        | _ => none)]
    split <;> split <;> split <;> split <;> rfl

theorem fileTexts_vemit (p : Platform) (g : DerrState) (lvl : Int)
    (has_errno : Bool) (errnum : Int) (tbuf msg : String) :
    fileTexts (vemit p g lvl has_errno errnum tbuf msg) =
      if lvl < g.min_level then []
      else if g.file then
        [fileText g lvl has_errno errnum tbuf msg (ebufOf p g has_errno errnum)]
      else [] := by
  by_cases h : lvl < g.min_level
  · rw [vemit, if_pos h, if_pos h]
    rfl
  · rw [vemit_pass p g lvl has_errno errnum tbuf msg h, if_neg h]
    unfold fileTexts lockE unlockE btPart
    simp only [List.filterMap_append, List.filterMap_cons, List.filterMap_nil, apply_ite
      (List.filterMap fun e =>
        match e with
        | Event.fileWrite t => some t
        | _ => none)]
    split <;> split <;> split <;> split <;> rfl

theorem syslogTexts_vemit (p : Platform) (g : DerrState) (lvl : Int)
    (has_errno : Bool) (errnum : Int) (tbuf msg : String) :
    syslogTexts (vemit p g lvl has_errno errnum tbuf msg) =
      if lvl < g.min_level then []
      else if p.posix && g.use_syslog then
        [syslogText g has_errno errnum msg (ebufOf p g has_errno errnum)]
      else [] := by
  by_cases h : lvl < g.min_level
  · rw [vemit, if_pos h, if_pos h]
    rfl
  · rw [vemit_pass p g lvl has_errno errnum tbuf msg h, if_neg h]
    unfold syslogTexts lockE unlockE btPart
    simp only [List.filterMap_append, List.filterMap_cons, List.filterMap_nil, apply_ite
      (List.filterMap fun e =>
        match e with
        | Event.syslogWrite _ t => some t
        | _ => none)]
    split <;> split <;> split <;> split <;> rfl

/-- Claim C2: in every sink's record text the errno-detail text
(`-> <translated description>`) appears when the record carries an error
code and the errno-detail flag is on; when either condition fails the
whole emission is independent of the error code and of the translation
facility (so no errno detail can appear in any sink, the translation is
never consulted, and `derr_log` — which passes `has_errno = 0` — never
produces errno detail). -/
theorem errno_detail_iff_code_and_flag
    (p : Platform) (g : DerrState) (lvl : Int) (has_errno : Bool)
    (errnum : Int) (tbuf msg : String) :
    ((has_errno && g.include_errno) = true →
      (∀ t ∈ consoleTexts (vemit p g lvl has_errno errnum tbuf msg),
        OccursIn ("-> " ++ strerror_portable p errnum) t) ∧
      (∀ t ∈ fileTexts (vemit p g lvl has_errno errnum tbuf msg),
        OccursIn ("-> " ++ strerror_portable p errnum) t) ∧
      (∀ t ∈ syslogTexts (vemit p g lvl has_errno errnum tbuf msg),
        OccursIn ("-> " ++ strerror_portable p errnum) t)) ∧
    ((has_errno && g.include_errno) = false →
      ∀ (q : Platform) (errnum' : Int),
        q.posix = p.posix → q.bt_avail = p.bt_avail → q.frames = p.frames →
        vemit q g lvl has_errno errnum' tbuf msg =
          vemit p g lvl has_errno errnum tbuf msg) := by
  constructor
  · intro hc
    refine ⟨?_, ?_, ?_⟩
    · intro t ht
      rw [consoleTexts_vemit] at ht
      by_cases h : lvl < g.min_level
      · rw [if_pos h] at ht
        exact absurd ht (List.not_mem_nil t)
      · rw [if_neg h] at ht
        simp only [List.mem_singleton] at ht
        subst ht
        unfold consoleText ebufOf
        simp only [if_pos hc]
        refine ⟨level_color g lvl ++ tbuf ++ color_reset g ++ " [" ++ level_str lvl ++
          "] " ++ g.progname.getD "program" ++ ": " ++ msg ++ " (errno=" ++
          toString errnum ++ ")\n" ++ level_color g lvl ++ "        ",
          color_reset g ++ "\n", ?_⟩
        apply String.ext
        simp only [String.data_append, List.append_assoc, List.cons_append,
          List.nil_append]
    · intro t ht
      rw [fileTexts_vemit] at ht
      by_cases h : lvl < g.min_level
      · rw [if_pos h] at ht
        exact absurd ht (List.not_mem_nil t)
      · rw [if_neg h] at ht
        by_cases hf : g.file
        · rw [if_pos hf] at ht
          simp only [List.mem_singleton] at ht
          subst ht
          unfold fileText ebufOf
          simp only [if_pos hc]
          refine ⟨tbuf ++ " [" ++ level_str lvl ++ "] " ++ g.progname.getD "program" ++
            ": " ++ msg ++ " (errno=" ++ toString errnum ++ ")\n        ", "\n", ?_⟩
          apply String.ext
          simp only [String.data_append, List.append_assoc, List.cons_append,
            List.nil_append]
        · rw [if_neg hf] at ht
          exact absurd ht (List.not_mem_nil t)
    · intro t ht
      rw [syslogTexts_vemit] at ht
      by_cases h : lvl < g.min_level
      · rw [if_pos h] at ht
        exact absurd ht (List.not_mem_nil t)
      · rw [if_neg h] at ht
        by_cases hs : (p.posix && g.use_syslog) = true
        · rw [if_pos hs] at ht
          simp only [List.mem_singleton] at ht
          subst ht
          unfold syslogText ebufOf
          simp only [if_pos hc]
          refine ⟨g.progname.getD "program" ++ ": " ++ msg ++ " (errno=" ++
            toString errnum ++ ") ", "", ?_⟩
          apply String.ext
          simp only [String.data_append, List.append_assoc, List.cons_append,
            List.nil_append, List.append_nil]
        · rw [if_neg hs] at ht
          exact absurd ht (List.not_mem_nil t)
  · intro hc q errnum' hq1 hq2 hq3
    by_cases h : lvl < g.min_level
    · rw [vemit, if_pos h, vemit, if_pos h]
    · rw [vemit_pass q g lvl has_errno errnum' tbuf msg h,
        vemit_pass p g lvl has_errno errnum tbuf msg h]
      simp [lockE, unlockE, btPart, btHeader, ebufOf, consoleText, fileText,
        syslogText, hc, hq1, hq2, hq3]

theorem errno_detail_iff_code_and_flag_witness :
    ((∀ t ∈ consoleTexts (vemit pLinux g_derr DERR_ERROR true 2 "t" "m"),
        OccursIn ("-> " ++ strerror_portable pLinux 2) t) ∧
      (∀ t ∈ fileTexts (vemit pLinux g_derr DERR_ERROR true 2 "t" "m"),
        OccursIn ("-> " ++ strerror_portable pLinux 2) t) ∧
      (∀ t ∈ syslogTexts (vemit pLinux g_derr DERR_ERROR true 2 "t" "m"),
        OccursIn ("-> " ++ strerror_portable pLinux 2) t)) ∧
    vemit pLinux g_derr DERR_ERROR false 7 "t" "m" =
      vemit pLinux g_derr DERR_ERROR false 0 "t" "m" :=
  ⟨(errno_detail_iff_code_and_flag pLinux g_derr DERR_ERROR true 2 "t" "m").1
      (by decide),
   (errno_detail_iff_code_and_flag pLinux g_derr DERR_ERROR false 0 "t" "m").2
      (by decide) pLinux 7 rfl rfl rfl⟩

theorem consoleTexts_append (a b : List Event) :
    consoleTexts (a ++ b) = consoleTexts a ++ consoleTexts b := by
  unfold consoleTexts
  exact List.filterMap_append a b _

theorem consoleTexts_derr_flush (p : Platform) (g : DerrState) :
    consoleTexts (derr_flush p g) = [] := by
  unfold derr_flush consoleTexts lockE unlockE
  simp only [List.filterMap_append, apply_ite
    (List.filterMap fun e =>
      match e with
      | Event.consoleWrite t => some t
      | _ => none)]
  split <;> split <;> rfl

/-- Claim C3: `DASSERT(cond, ...)` with a true condition is a complete
no-op — empty trace (no formatting, no lock, no flush, no sink write) and
normal return; with a false condition it emits a FATAL record through
`derr_log_errno` carrying the stringified condition and the current
`errno` (both visible in the console text whenever the record passes the
filter, the errno number whenever the errno-detail flag is on),
force-flushes, and terminates with `abort()` — an outcome distinct from
the `DIE`/`DIE_ERRNO` clean `exit(EXIT_FAILURE)`. -/
theorem dassert_noop_or_abort
    (p : Platform) (g : DerrState) (cond : Bool) (cond_str : String)
    (cur_errno : Int) (tbuf msg : String) :
    (cond = true →
      DASSERT p g cond cond_str cur_errno tbuf msg = ([], Outcome.ret)) ∧
    (cond = false →
      (DASSERT p g cond cond_str cur_errno tbuf msg).2 = Outcome.aborted ∧
      (DASSERT p g cond cond_str cur_errno tbuf msg).2 ≠ (DIE p g tbuf msg).2 ∧
      (DASSERT p g cond cond_str cur_errno tbuf msg).2 ≠
        (DIE_ERRNO p g cur_errno tbuf msg).2 ∧
      (DASSERT p g cond cond_str cur_errno tbuf msg).1 =
        derr_log_errno p g DERR_FATAL cur_errno tbuf
          ("Assert failed: " ++ cond_str ++ " — " ++ msg) ++ derr_flush p g ∧
      (g.min_level ≤ DERR_FATAL →
        ∃ t, t ∈ consoleTexts (DASSERT p g cond cond_str cur_errno tbuf msg).1 ∧
          OccursIn ("Assert failed: " ++ cond_str) t ∧
          (g.include_errno = true →
            OccursIn ("(errno=" ++ toString cur_errno ++ ")") t)) ∧
      Event.consoleFlush ∈ (DASSERT p g cond cond_str cur_errno tbuf msg).1) := by
  constructor
  · intro h
    subst h
    rfl
  · intro h
    subst h
    refine ⟨rfl, by simp [DASSERT, DIE], by simp [DASSERT, DIE_ERRNO], rfl, ?_, ?_⟩
    · intro hlvl
      refine ⟨consoleText g DERR_FATAL true cur_errno tbuf
        ("Assert failed: " ++ cond_str ++ " — " ++ msg)
        (ebufOf p g true cur_errno), ?_, ?_, ?_⟩
      · show _ ∈ consoleTexts (derr_log_errno p g DERR_FATAL cur_errno tbuf
          ("Assert failed: " ++ cond_str ++ " — " ++ msg) ++ derr_flush p g)
        rw [consoleTexts_append, derr_log_errno, consoleTexts_vemit,
          if_neg (not_lt.mpr hlvl), consoleTexts_derr_flush]
        simp
      · unfold consoleText
        by_cases hi : g.include_errno = true
        · have hc : (true && g.include_errno) = true := by simp [hi]
          simp only [if_pos hc]
          refine ⟨level_color g DERR_FATAL ++ tbuf ++ color_reset g ++ " [" ++
            level_str DERR_FATAL ++ "] " ++ g.progname.getD "program" ++ ": ",
            " — " ++ msg ++ " (errno=" ++ toString cur_errno ++ ")\n" ++
            level_color g DERR_FATAL ++ "        -> " ++ ebufOf p g true cur_errno ++
            color_reset g ++ "\n", ?_⟩
          apply String.ext
          simp only [String.data_append, List.append_assoc, List.cons_append,
            List.nil_append]
        · have hc : ¬((true && g.include_errno) = true) := by simp [hi]
          simp only [if_neg hc]
          refine ⟨level_color g DERR_FATAL ++ tbuf ++ color_reset g ++ " [" ++
            level_str DERR_FATAL ++ "] " ++ g.progname.getD "program" ++ ": ",
            " — " ++ msg ++ "\n", ?_⟩
          apply String.ext
          simp only [String.data_append, List.append_assoc, List.cons_append,
            List.nil_append]
      · intro hi
        unfold consoleText
        have hc : (true && g.include_errno) = true := by simp [hi]
        simp only [if_pos hc]
        refine ⟨level_color g DERR_FATAL ++ tbuf ++ color_reset g ++ " [" ++
          level_str DERR_FATAL ++ "] " ++ g.progname.getD "program" ++ ": " ++
          ("Assert failed: " ++ cond_str ++ " — " ++ msg) ++ " ",
          "\n" ++ level_color g DERR_FATAL ++ "        -> " ++
          ebufOf p g true cur_errno ++ color_reset g ++ "\n", ?_⟩
        apply String.ext
        simp only [String.data_append, List.append_assoc, List.cons_append,
          List.nil_append]
    · show Event.consoleFlush ∈ derr_log_errno p g DERR_FATAL cur_errno tbuf
        ("Assert failed: " ++ cond_str ++ " — " ++ msg) ++ derr_flush p g
      exact List.mem_append_right _ (by simp [derr_flush])

theorem dassert_noop_or_abort_witness :
    DASSERT pLinux g_derr true "x == 10" 2 "t" "m" = ([], Outcome.ret) ∧
    (DASSERT pLinux g_derr false "x == 10" 2 "t" "m").2 = Outcome.aborted ∧
    (∃ t, t ∈ consoleTexts (DASSERT pLinux g_derr false "x == 10" 2 "t" "m").1 ∧
      OccursIn ("Assert failed: " ++ "x == 10") t ∧
      (g_derr.include_errno = true →
        OccursIn ("(errno=" ++ toString (2 : Int) ++ ")") t)) ∧
    Event.consoleFlush ∈ (DASSERT pLinux g_derr false "x == 10" 2 "t" "m").1 :=
  ⟨(dassert_noop_or_abort pLinux g_derr true "x == 10" 2 "t" "m").1 rfl,
   ((dassert_noop_or_abort pLinux g_derr false "x == 10" 2 "t" "m").2 rfl).1,
   ((dassert_noop_or_abort pLinux g_derr false "x == 10" 2 "t" "m").2 rfl).2.2.2.2.1
     (by decide),
   ((dassert_noop_or_abort pLinux g_derr false "x == 10" 2 "t" "m").2 rfl).2.2.2.2.2⟩

/-- Claim C4: `DTRY(expr)` with expression value `-1` behaves exactly as
`DIE_ERRNO("%s failed", #expr)` — a FATAL emission with the current
`errno` and a message naming the failed expression, a forced flush, and
termination with the failure exit status; any other value is a pure
no-op. -/
theorem dtry_sentinel_dies_else_noop
    (p : Platform) (g : DerrState) (v : Int) (expr_str : String)
    (cur_errno : Int) (tbuf : String) :
    (v = -1 →
      DTRY p g v expr_str cur_errno tbuf =
        DIE_ERRNO p g cur_errno tbuf (expr_str ++ " failed") ∧
      (DTRY p g v expr_str cur_errno tbuf).2 = Outcome.exited 1) ∧
    (v ≠ -1 → DTRY p g v expr_str cur_errno tbuf = ([], Outcome.ret)) := by
  constructor
  · intro h
    constructor
    · rw [DTRY, if_pos h]
    · rw [DTRY, if_pos h]
      rfl
  · intro h
    rw [DTRY, if_neg h]

theorem dtry_sentinel_dies_else_noop_witness :
    (DTRY pLinux g_derr (-1) "ret" 2 "t" =
        DIE_ERRNO pLinux g_derr 2 "t" ("ret" ++ " failed") ∧
      (DTRY pLinux g_derr (-1) "ret" 2 "t").2 = Outcome.exited 1) ∧
    DTRY pLinux g_derr 0 "ret" 2 "t" = ([], Outcome.ret) :=
  ⟨(dtry_sentinel_dies_else_noop pLinux g_derr (-1) "ret" 2 "t").1 rfl,
   (dtry_sentinel_dies_else_noop pLinux g_derr 0 "ret" 2 "t").2 (by decide)⟩

/-- Claim C5: on a POSIX platform, `derr_use_syslog` has idempotent
open/close semantics — enabling performs exactly one `openlog` when the
sink was previously disabled and nothing at all when already enabled (so
enabling twice in a row performs only one open), disabling performs
exactly one `closelog` when previously enabled and nothing otherwise, and
along any sequence of calls the `use_syslog` flag always equals the
open/closed state of the system-log channel as driven by the
`openlog`/`closelog` events. -/
theorem use_syslog_idempotent_open_close (p : Platform) (hp : p.posix = true) :
    (∀ g : DerrState, g.use_syslog = false →
      derr_use_syslog p g true =
        ([Event.openlogChannel (g.progname.getD "program")],
         { g with use_syslog := true })) ∧
    (∀ g : DerrState, g.use_syslog = true → derr_use_syslog p g true = ([], g)) ∧
    (∀ g : DerrState, g.use_syslog = true →
      derr_use_syslog p g false =
        ([Event.closelogChannel], { g with use_syslog := false })) ∧
    (∀ g : DerrState, g.use_syslog = false → derr_use_syslog p g false = ([], g)) ∧
    (∀ g : DerrState, (derr_use_syslog p (derr_use_syslog p g true).2 true).1 = []) ∧
    (∀ (g : DerrState) (bs : List Bool) (chan : Bool), g.use_syslog = chan →
      (runSyslogCalls p g bs).2.use_syslog =
        chanAfter chan (runSyslogCalls p g bs).1) := by
  refine ⟨?_, ?_, ?_, ?_, ?_, ?_⟩
  · intro g h
    simp [derr_use_syslog, hp, h]
  · intro g h
    simp [derr_use_syslog, hp, h]
  · intro g h
    simp [derr_use_syslog, hp, h]
  · intro g h
    simp [derr_use_syslog, hp, h]
  · intro g
    by_cases h : g.use_syslog = true <;> simp [derr_use_syslog, hp, h]
  · intro g bs chan h
    subst h
    induction bs generalizing g with
    | nil => rfl
    | cons b bs ih =>
      rw [runSyslogCalls]
      simp only [chanAfter, List.foldl_append]
      have key : List.foldl chanStep g.use_syslog (derr_use_syslog p g b).1 =
          (derr_use_syslog p g b).2.use_syslog := by
        cases b <;> by_cases hg : g.use_syslog = true <;>
          simp [derr_use_syslog, hp, hg, chanStep]
      rw [key]
      exact ih (derr_use_syslog p g b).2

theorem use_syslog_idempotent_open_close_witness :
    derr_use_syslog pLinux g_derr true =
      ([Event.openlogChannel (g_derr.progname.getD "program")],
       { g_derr with use_syslog := true }) ∧
    (derr_use_syslog pLinux (derr_use_syslog pLinux g_derr true).2 true).1 = [] ∧
    (runSyslogCalls pLinux g_derr [true, true, false, true]).2.use_syslog =
      chanAfter false (runSyslogCalls pLinux g_derr [true, true, false, true]).1 :=
  ⟨(use_syslog_idempotent_open_close pLinux rfl).1 g_derr rfl,
   (use_syslog_idempotent_open_close pLinux rfl).2.2.2.2.1 g_derr,
   (use_syslog_idempotent_open_close pLinux rfl).2.2.2.2.2 g_derr
     [true, true, false, true] false rfl⟩

theorem btEvents_vemit (p : Platform) (g : DerrState) (lvl : Int)
    (has_errno : Bool) (errnum : Int) (tbuf msg : String) :
    btEvents (vemit p g lvl has_errno errnum tbuf msg) =
      if lvl < g.min_level then []
      else if p.bt_avail && decide (DERR_FATAL ≤ lvl) && decide (0 < min p.frames 128) then
        [(min p.frames 128, btHeader g lvl (min p.frames 128))]
      else [] := by
  by_cases h : lvl < g.min_level
  · rw [vemit, if_pos h, if_pos h]
    rfl
  · rw [vemit_pass p g lvl has_errno errnum tbuf msg h, if_neg h]
    unfold btEvents lockE unlockE btPart
    simp only [List.filterMap_append, List.filterMap_cons, List.filterMap_nil, apply_ite
      (List.filterMap fun e =>
        match e with
        | Event.btWrite n h => some (n, h)
        | _ => none)]
    split <;> split <;> split <;> split <;> rfl

/-- Claim C6: a backtrace write occurs in an emission only when the
capture facility is compiled in, the severity is at least `DERR_FATAL`,
and `backtrace` captured a positive number of frames — at most 128; when
those conditions hold the backtrace rendering is written to the console
(`stderr`) after the primary formatted record line, inside the same
lock/unlock critical section; and an unavailable capture facility is
silent: the emission trace is exactly the available-facility trace with
the backtrace writes removed, everything else unaffected. -/
theorem backtrace_iff_fatal
    (p : Platform) (g : DerrState) (lvl : Int) (has_errno : Bool)
    (errnum : Int) (tbuf msg : String) :
    (∀ n h, (n, h) ∈ btEvents (vemit p g lvl has_errno errnum tbuf msg) →
      p.bt_avail = true ∧ DERR_FATAL ≤ lvl ∧ 0 < n ∧ n ≤ 128) ∧
    (¬ lvl < g.min_level → p.bt_avail = true → DERR_FATAL ≤ lvl → 0 < p.frames →
      ∃ mid ct,
        vemit p g lvl has_errno errnum tbuf msg =
          lockE p ++ [Event.consoleWrite ct] ++ mid ++
            [Event.btWrite (min p.frames 128) (btHeader g lvl (min p.frames 128))] ++
            unlockE p ∧
        ∀ e ∈ mid, isBt e = false) ∧
    List.filter (fun e => !isBt e) (vemit p g lvl has_errno errnum tbuf msg) =
      vemit { p with bt_avail := false } g lvl has_errno errnum tbuf msg := by
  refine ⟨?_, ?_, ?_⟩
  · intro n h hmem
    rw [btEvents_vemit] at hmem
    by_cases hf : lvl < g.min_level
    · rw [if_pos hf] at hmem
      exact absurd hmem (List.not_mem_nil _)
    · rw [if_neg hf] at hmem
      by_cases hc : (p.bt_avail && decide (DERR_FATAL ≤ lvl) &&
          decide (0 < min p.frames 128)) = true
      · rw [if_pos hc] at hmem
        simp only [List.mem_singleton, Prod.mk.injEq] at hmem
        obtain ⟨hn, _⟩ := hmem
        subst hn
        simp only [Bool.and_eq_true, decide_eq_true_eq] at hc
        exact ⟨hc.1.1, hc.1.2, hc.2, min_le_right _ _⟩
      · rw [if_neg hc] at hmem
        exact absurd hmem (List.not_mem_nil _)
  · intro hf hbt hlvl hfr
    have h128 : 0 < min p.frames 128 := lt_min hfr (by norm_num)
    have hc : (p.bt_avail && decide (DERR_FATAL ≤ lvl) &&
        decide (0 < min p.frames 128)) = true := by
      simp [hbt, hlvl, h128]
    refine ⟨(if g.file then
        [Event.fileWrite (fileText g lvl has_errno errnum tbuf msg
          (ebufOf p g has_errno errnum)), Event.fileFlush] else []) ++
      (if p.posix && g.use_syslog then
        [Event.syslogWrite (syslog_priority lvl)
          (syslogText g has_errno errnum msg (ebufOf p g has_errno errnum))] else []),
      consoleText g lvl has_errno errnum tbuf msg (ebufOf p g has_errno errnum),
      ?_, ?_⟩
    · rw [vemit_pass p g lvl has_errno errnum tbuf msg hf]
      simp only [btPart, if_pos hc, List.append_assoc]
    · intro e he
      rcases List.mem_append.mp he with h1 | h2
      · by_cases hfile : g.file = true
        · rw [if_pos hfile] at h1
          simp only [List.mem_cons, List.not_mem_nil, or_false] at h1
          rcases h1 with rfl | rfl <;> rfl
        · rw [if_neg hfile] at h1
          exact absurd h1 (List.not_mem_nil _)
      · by_cases hs : (p.posix && g.use_syslog) = true
        · rw [if_pos hs] at h2
          simp only [List.mem_singleton] at h2
          subst h2
          rfl
        · rw [if_neg hs] at h2
          exact absurd h2 (List.not_mem_nil _)
  · by_cases hf : lvl < g.min_level
    · rw [vemit, if_pos hf, vemit, if_pos hf]
      rfl
    · rw [vemit_pass p g lvl has_errno errnum tbuf msg hf,
        vemit_pass { p with bt_avail := false } g lvl has_errno errnum tbuf msg hf]
      simp only [List.filter_append, lockE, unlockE, btPart, ebufOf, strerror_portable,
        apply_ite (List.filter fun e => !isBt e)]
      split <;> split <;> split <;> split <;> simp [isBt]

theorem backtrace_iff_fatal_witness :
    (pLinux.bt_avail = true ∧ DERR_FATAL ≤ DERR_FATAL ∧
      0 < min (pLinux.frames) 128 ∧ min (pLinux.frames) 128 ≤ 128) ∧
    (∃ mid ct,
      vemit pLinux g_derr DERR_FATAL false 0 "t" "m" =
        lockE pLinux ++ [Event.consoleWrite ct] ++ mid ++
          [Event.btWrite (min (pLinux.frames) 128)
            (btHeader g_derr DERR_FATAL (min (pLinux.frames) 128))] ++
          unlockE pLinux ∧
      ∀ e ∈ mid, isBt e = false) ∧
    List.filter (fun e => !isBt e) (vemit pLinux g_derr DERR_FATAL false 0 "t" "m") =
      vemit { pLinux with bt_avail := false } g_derr DERR_FATAL false 0 "t" "m" :=
  ⟨(backtrace_iff_fatal pLinux g_derr DERR_FATAL false 0 "t" "m").1
     (min (pLinux.frames) 128) (btHeader g_derr DERR_FATAL (min (pLinux.frames) 128))
     (by rw [btEvents_vemit]; decide),
   (backtrace_iff_fatal pLinux g_derr DERR_FATAL false 0 "t" "m").2.1
     (by decide) rfl (by decide) (by decide),
   (backtrace_iff_fatal pLinux g_derr DERR_FATAL false 0 "t" "m").2.2⟩

/-- Claim C7: `strerror_portable` delivers the description entirely in the
caller-supplied buffer: under the GNU variant its result is the
description itself whether or not the underlying `strerror_r` used its
own static storage (so two platforms whose facilities produce the same
descriptions but differ in static-buffer behaviour give identical
results — no global mutable buffer is relied upon), and under the XSI
variant a failing translation falls back to the numeric placeholder
`"errno <N>"` for every error code, a successful one to the description
written into the buffer. -/
theorem strerror_portable_caller_buffer_and_fallback
    (p q : Platform) (errnum : Int) :
    (p.gnu_strerror = true → q.gnu_strerror = true →
      (∀ e, (p.strerror_gnu e).1 = (q.strerror_gnu e).1) →
      strerror_portable p errnum = strerror_portable q errnum) ∧
    (p.gnu_strerror = true →
      strerror_portable p errnum = (p.strerror_gnu errnum).1) ∧
    (p.gnu_strerror = false → p.strerror_ok errnum = none →
      strerror_portable p errnum = "errno " ++ toString errnum) ∧
    (p.gnu_strerror = false → ∀ s, p.strerror_ok errnum = some s →
      strerror_portable p errnum = s) := by
  refine ⟨?_, ?_, ?_, ?_⟩
  · intro h1 h2 heq
    simp [strerror_portable, h1, h2, ite_self, heq errnum]
  · intro h
    simp [strerror_portable, h, ite_self]
  · intro h1 h2
    simp [strerror_portable, h1, h2]
  · intro h1 s hs
    simp [strerror_portable, h1, hs]

theorem strerror_portable_caller_buffer_and_fallback_witness :
    strerror_portable pGnuDirect 4 = strerror_portable pGnuStatic 4 ∧
    strerror_portable pGnuDirect 4 = (pGnuDirect.strerror_gnu 4).1 ∧
    strerror_portable pLinux 99 = "errno " ++ toString (99 : Int) ∧
    strerror_portable pLinux 2 = "No such file or directory" :=
  ⟨(strerror_portable_caller_buffer_and_fallback pGnuDirect pGnuStatic 4).1
      rfl rfl (fun _ => rfl),
   (strerror_portable_caller_buffer_and_fallback pGnuDirect pGnuStatic 4).2.1 rfl,
   (strerror_portable_caller_buffer_and_fallback pLinux pLinux 99).2.2.1 rfl
     (by decide),
   (strerror_portable_caller_buffer_and_fallback pLinux pLinux 2).2.2.2 rfl
     "No such file or directory" (by decide)⟩

/-- Claim C8: on a platform with the POSIX mutex, an emission that passes
the filter performs its entire sink fanout inside the single global
critical section — the trace's first event is the lock acquisition, its
last the release, neither occurs anywhere else, and everything in between
is a sink write; the console record in particular is a single atomic
write carrying the complete line body, so under mutual exclusion
concurrent emissions cannot interleave inside it.  A filtered-out
emission touches neither a sink nor the mutex, so the lock is released on
every exit path on which it was acquired. -/
theorem fanout_under_global_mutex
    (p : Platform) (g : DerrState) (lvl : Int) (has_errno : Bool)
    (errnum : Int) (tbuf msg : String) (hp : p.posix = true) :
    (lvl < g.min_level → vemit p g lvl has_errno errnum tbuf msg = []) ∧
    (¬ lvl < g.min_level →
      ∃ body,
        vemit p g lvl has_errno errnum tbuf msg =
          Event.lock :: (body ++ [Event.unlock]) ∧
        Event.lock ∉ body ∧ Event.unlock ∉ body ∧
        (∀ e ∈ body, isSink e = true) ∧
        consoleTexts body =
          [consoleText g lvl has_errno errnum tbuf msg (ebufOf p g has_errno errnum)]) := by
  constructor
  · intro h
    rw [vemit, if_pos h]
  · intro hf
    have hsink : ∀ e ∈
        [Event.consoleWrite (consoleText g lvl has_errno errnum tbuf msg
          (ebufOf p g has_errno errnum))] ++
        (if g.file then
            [Event.fileWrite (fileText g lvl has_errno errnum tbuf msg
              (ebufOf p g has_errno errnum)), Event.fileFlush]
          else []) ++
        (if p.posix && g.use_syslog then
            [Event.syslogWrite (syslog_priority lvl)
              (syslogText g has_errno errnum msg (ebufOf p g has_errno errnum))]
          else []) ++
        btPart p g lvl, isSink e = true := by
      intro e he
      rcases List.mem_append.mp he with h123 | hbt
      · rcases List.mem_append.mp h123 with h12 | h3
        · rcases List.mem_append.mp h12 with h1 | h2
          · simp only [List.mem_singleton] at h1
            subst h1
            rfl
          · by_cases hfile : g.file = true
            · rw [if_pos hfile] at h2
              simp only [List.mem_cons, List.not_mem_nil, or_false] at h2
              rcases h2 with rfl | rfl <;> rfl
            · rw [if_neg hfile] at h2
              exact absurd h2 (List.not_mem_nil _)
        · by_cases hs : (p.posix && g.use_syslog) = true
          · rw [if_pos hs] at h3
            simp only [List.mem_singleton] at h3
            subst h3
            rfl
          · rw [if_neg hs] at h3
            exact absurd h3 (List.not_mem_nil _)
      · have hb := btPart_isBt p g lvl _ hbt
        cases e <;> simp_all [isBt, isSink]
    refine ⟨_, ?_, fun hmem => by simpa [isSink] using hsink _ hmem,
      fun hmem => by simpa [isSink] using hsink _ hmem, hsink, ?_⟩
    · rw [vemit_pass p g lvl has_errno errnum tbuf msg hf]
      simp only [lockE, unlockE, if_pos hp, List.append_assoc, List.singleton_append,
        List.cons_append, List.nil_append]
    · unfold consoleTexts
      simp only [List.filterMap_append, apply_ite
        (List.filterMap fun e =>
          match e with
          | Event.consoleWrite t => some t
          | _ => none), btPart]
      split <;> split <;> split <;> rfl

theorem fanout_under_global_mutex_witness :
    vemit pLinux cfgWarn DERR_DEBUG false 0 "t" "m" = [] ∧
    (∃ body,
      vemit pLinux cfgWarn DERR_ERROR false 0 "t" "m" =
        Event.lock :: (body ++ [Event.unlock]) ∧
      Event.lock ∉ body ∧ Event.unlock ∉ body ∧
      (∀ e ∈ body, isSink e = true) ∧
      consoleTexts body =
        [consoleText cfgWarn DERR_ERROR false 0 "t" "m"
          (ebufOf pLinux cfgWarn false 0)]) :=
  ⟨(fanout_under_global_mutex pLinux cfgWarn DERR_DEBUG false 0 "t" "m" rfl).1
      (by decide),
   (fanout_under_global_mutex pLinux cfgWarn DERR_ERROR false 0 "t" "m" rfl).2
      (by decide)⟩

theorem syslogEvents_vemit (p : Platform) (g : DerrState) (lvl : Int)
    (has_errno : Bool) (errnum : Int) (tbuf msg : String) :
    syslogEvents (vemit p g lvl has_errno errnum tbuf msg) =
      if lvl < g.min_level then []
      else if p.posix && g.use_syslog then
        [(syslog_priority lvl,
          syslogText g has_errno errnum msg (ebufOf p g has_errno errnum))]
      else [] := by
  by_cases h : lvl < g.min_level
  · rw [vemit, if_pos h, if_pos h]
    rfl
  · rw [vemit_pass p g lvl has_errno errnum tbuf msg h, if_neg h]
    unfold syslogEvents lockE unlockE btPart
    simp only [List.filterMap_append, apply_ite
      (List.filterMap fun e =>
        match e with
        | Event.syslogWrite pr t => some (pr, t)
        | _ => none)]
    split <;> split <;> split <;> split <;> rfl

/-- Claim C9: the initial `g_derr` configuration is: no program name,
`min_level = DERR_DEBUG` (so no record at any of the five defined
severities is filtered), ANSI colour on, local-time timestamps (UTC off),
errno-detail inclusion on, no file sink, syslog off; and any emission
made while the program name is unset renders the placeholder `program`
in the record (`] program: ` between the level tag and the message). -/
theorem initial_configuration_defaults :
    g_derr.progname = none ∧ g_derr.min_level = DERR_DEBUG ∧
    g_derr.color = true ∧ g_derr.utc = false ∧ g_derr.include_errno = true ∧
    g_derr.file = false ∧ g_derr.use_syslog = false ∧
    (∀ lvl : Int, lvl = DERR_DEBUG ∨ lvl = DERR_INFO ∨ lvl = DERR_WARN ∨
        lvl = DERR_ERROR ∨ lvl = DERR_FATAL → ¬ lvl < g_derr.min_level) ∧
    (∀ (p : Platform) (g : DerrState) (lvl : Int) (has_errno : Bool)
        (errnum : Int) (tbuf msg : String), g.progname = none →
      ¬ lvl < g.min_level →
      ∃ t, consoleTexts (vemit p g lvl has_errno errnum tbuf msg) = [t] ∧
        OccursIn "] program: " t) := by
  refine ⟨rfl, rfl, rfl, rfl, rfl, rfl, rfl, ?_, ?_⟩
  · intro lvl h
    rcases h with rfl | rfl | rfl | rfl | rfl <;> decide
  · intro p g lvl has_errno errnum tbuf msg hpn hf
    refine ⟨consoleText g lvl has_errno errnum tbuf msg (ebufOf p g has_errno errnum),
      ?_, ?_⟩
    · rw [consoleTexts_vemit, if_neg hf]
    · unfold consoleText
      simp only [hpn, Option.getD_none]
      by_cases hc : (has_errno && g.include_errno) = true
      · simp only [if_pos hc]
        refine ⟨level_color g lvl ++ tbuf ++ color_reset g ++ " [" ++ level_str lvl,
          msg ++ " (errno=" ++ toString errnum ++ ")\n" ++ level_color g lvl ++
            "        -> " ++ ebufOf p g has_errno errnum ++ color_reset g ++ "\n", ?_⟩
        apply String.ext
        simp only [String.data_append, List.append_assoc, List.cons_append,
          List.nil_append]
      · simp only [if_neg hc]
        refine ⟨level_color g lvl ++ tbuf ++ color_reset g ++ " [" ++ level_str lvl,
          msg ++ "\n", ?_⟩
        apply String.ext
        simp only [String.data_append, List.append_assoc, List.cons_append,
          List.nil_append]

theorem initial_configuration_defaults_witness :
    ¬ DERR_DEBUG < g_derr.min_level ∧
    (∃ t, consoleTexts (vemit pLinux g_derr DERR_INFO false 0 "t" "m") = [t] ∧
      OccursIn "] program: " t) :=
  ⟨initial_configuration_defaults.2.2.2.2.2.2.2.1 DERR_DEBUG (Or.inl rfl),
   initial_configuration_defaults.2.2.2.2.2.2.2.2 pLinux g_derr DERR_INFO false 0
     "t" "m" rfl (by decide)⟩

/-- Claim C10: a severity value outside the five defined levels is still
emitted whenever it passes the `min_level` filter: its console and file
record texts carry the `[LOG]` label, its colour (with colour enabled) is
the plain reset escape, and its system-log write uses the `LOG_INFO`
priority via the mapping's default arm. -/
theorem out_of_enum_severity_log_label
    (lvl : Int)
    (h1 : lvl ≠ DERR_DEBUG) (h2 : lvl ≠ DERR_INFO) (h3 : lvl ≠ DERR_WARN)
    (h4 : lvl ≠ DERR_ERROR) (h5 : lvl ≠ DERR_FATAL) :
    level_str lvl = "LOG" ∧
    (∀ g : DerrState, g.color = true → level_color g lvl = "\x1b[0m") ∧
    syslog_priority lvl = LOG_INFO ∧
    (∀ (p : Platform) (g : DerrState) (has_errno : Bool) (errnum : Int)
        (tbuf msg : String), ¬ lvl < g.min_level →
      (∃ t, consoleTexts (vemit p g lvl has_errno errnum tbuf msg) = [t] ∧
        OccursIn "[LOG]" t) ∧
      (∀ t ∈ fileTexts (vemit p g lvl has_errno errnum tbuf msg),
        OccursIn "[LOG]" t) ∧
      (∀ pr t, (pr, t) ∈ syslogEvents (vemit p g lvl has_errno errnum tbuf msg) →
        pr = LOG_INFO)) := by
  have hstr : level_str lvl = "LOG" := by
    simp [level_str, h1, h2, h3, h4, h5]
  have hpri : syslog_priority lvl = LOG_INFO := by
    simp [syslog_priority, h1, h2, h3, h4, h5]
  refine ⟨hstr, ?_, hpri, ?_⟩
  · intro g hg
    simp [level_color, hg, h1, h2, h3, h4, h5]
  · intro p g has_errno errnum tbuf msg hf
    refine ⟨?_, ?_, ?_⟩
    · refine ⟨consoleText g lvl has_errno errnum tbuf msg (ebufOf p g has_errno errnum),
        ?_, ?_⟩
      · rw [consoleTexts_vemit, if_neg hf]
      · unfold consoleText
        simp only [hstr]
        by_cases hc : (has_errno && g.include_errno) = true
        · simp only [if_pos hc]
          refine ⟨level_color g lvl ++ tbuf ++ color_reset g ++ " ",
            " " ++ g.progname.getD "program" ++ ": " ++ msg ++ " (errno=" ++
              toString errnum ++ ")\n" ++ level_color g lvl ++ "        -> " ++
              ebufOf p g has_errno errnum ++ color_reset g ++ "\n", ?_⟩
          apply String.ext
          simp only [String.data_append, List.append_assoc, List.cons_append,
            List.nil_append]
        · simp only [if_neg hc]
          refine ⟨level_color g lvl ++ tbuf ++ color_reset g ++ " ",
            " " ++ g.progname.getD "program" ++ ": " ++ msg ++ "\n", ?_⟩
          apply String.ext
          simp only [String.data_append, List.append_assoc, List.cons_append,
            List.nil_append]
    · intro t ht
      rw [fileTexts_vemit, if_neg hf] at ht
      by_cases hfile : g.file = true
      · rw [if_pos hfile] at ht
        simp only [List.mem_singleton] at ht
        subst ht
        unfold fileText
        simp only [hstr]
        by_cases hc : (has_errno && g.include_errno) = true
        · simp only [if_pos hc]
          refine ⟨tbuf ++ " ",
            " " ++ g.progname.getD "program" ++ ": " ++ msg ++ " (errno=" ++
              toString errnum ++ ")\n        -> " ++ ebufOf p g has_errno errnum ++
              "\n", ?_⟩
          apply String.ext
          simp only [String.data_append, List.append_assoc, List.cons_append,
            List.nil_append]
        · simp only [if_neg hc]
          refine ⟨tbuf ++ " ",
            " " ++ g.progname.getD "program" ++ ": " ++ msg ++ "\n", ?_⟩
          apply String.ext
          simp only [String.data_append, List.append_assoc, List.cons_append,
            List.nil_append]
      · rw [if_neg hfile] at ht
        exact absurd ht (List.not_mem_nil t)
    · intro pr t hmem
      rw [syslogEvents_vemit, if_neg hf] at hmem
      by_cases hs : (p.posix && g.use_syslog) = true
      · rw [if_pos hs] at hmem
        simp only [List.mem_singleton, Prod.mk.injEq] at hmem
        rw [hmem.1, hpri]
      · rw [if_neg hs] at hmem
        exact absurd hmem (List.not_mem_nil _)

theorem out_of_enum_severity_log_label_witness :
    level_str 25 = "LOG" ∧
    level_color g_derr 25 = "\x1b[0m" ∧
    syslog_priority 25 = LOG_INFO ∧
    (∃ t, consoleTexts (vemit pLinux g_derr 25 false 0 "t" "m") = [t] ∧
      OccursIn "[LOG]" t) :=
  ⟨(out_of_enum_severity_log_label 25 (by decide) (by decide) (by decide)
      (by decide) (by decide)).1,
   (out_of_enum_severity_log_label 25 (by decide) (by decide) (by decide)
      (by decide) (by decide)).2.1 g_derr rfl,
   (out_of_enum_severity_log_label 25 (by decide) (by decide) (by decide)
      (by decide) (by decide)).2.2.1,
   ((out_of_enum_severity_log_label 25 (by decide) (by decide) (by decide)
      (by decide) (by decide)).2.2.2 pLinux g_derr false 0 "t" "m" (by decide)).1⟩

end Derr
